import Mathlib

/-!
Verification of the pyconjp-image-search query-composition and ranking engine.

The development shallowly embeds the TypeScript sources:
  * `src/web/src/lib/search.ts` — the fusion ranker
    (`searchByMultipleFaceEmbeddings`, `searchByFaceEmbedding` as an abstract
    store oracle, `getImageEmbedding` as an abstract lookup oracle);
  * `src/web/src/hooks/useImageSearch.ts` (the `part_002` revision with face
    search) — the query-session state machine (`searchByText`, `searchByImage`,
    `searchByStoredEmbedding`, `searchByFace`, `searchByFaces`, `loadMore`);
  * `src/web/src/components/GalleryItem.tsx` — the crop overlay geometry
    (`getRenderedRect`, the `handleMouseUp` display-to-pixel mapping).

JavaScript numbers are modelled as exact rationals (all arithmetic performed by
the embedded code — sums, divisions, `Math.max`, `Math.round`, comparisons —
is exact on the inputs considered).  The SQL-backed store functions are
modelled as oracle parameters, since their bodies execute inside DuckDB.
-/

namespace ImageSearch

/-- A row of the store's reply, `SearchResult` in `src/web/src/types`.
Display attributes other than `image_url` play no role in any claim and are
elided; `score` is the cosine-similarity (later: fused) score. -/
structure SearchResult where
  id : Int
  image_url : String
  score : ℚ
deriving DecidableEq

/-- The `options` argument of the search functions in `search.ts`
(`limit`, `offset`, optional `eventNames`, optional `tagNames`).
A JS `undefined` field is `none`. -/
structure SearchOptions where
  limit : Nat
  offset : Nat
  eventNames : Option (List String)
  tagNames : Option (List String)
deriving DecidableEq

/-- The single-face store query `searchByFaceEmbedding` (search.ts:130-182).
Its body is a SQL query executed by DuckDB (an external collaborator per the
spec), so it is passed around as an oracle of this type. -/
def FaceStore : Type := List ℚ → SearchOptions → List SearchResult

/-- Options of the per-face candidate retrievals issued by
`searchByMultipleFaceEmbeddings` (search.ts:201-209): inflated limit
`options.limit * 10`, offset `0`, the event filter passed through, and no
`tagNames` field at all. -/
def perFaceOptions (options : SearchOptions) : SearchOptions :=
  { limit := options.limit * 10, offset := 0,
    eventNames := options.eventNames, tagNames := none }

/-- One step of the `imageScoreMap` construction (search.ts:216-228): looking
up `result.id` in the insertion-ordered map; on a hit, `entry.scores[fi] =
result.score`; on a miss, a new entry `(result, Array(numFaces).fill(-1))`
with position `fi` set is appended.  The JS `Map` keyed by `id` preserving
insertion order is modelled as a list of entries keyed by `(·.1).id`. -/
def insertOne (numFaces fi : Nat) (m : List (SearchResult × List ℚ))
    (r : SearchResult) : List (SearchResult × List ℚ) :=
  if m.any (fun e => e.1.id = r.id) then
    m.map (fun e => if e.1.id = r.id then (e.1, e.2.set fi r.score) else e)
  else
    m ++ [(r, (List.replicate numFaces (-1 : ℚ)).set fi r.score)]

/-- The outer indexed loop `for (let fi = 0; ...)` of the map construction. -/
def buildMapAux (numFaces : Nat) : Nat → List (List SearchResult) →
    List (SearchResult × List ℚ) → List (SearchResult × List ℚ)
  | _, [], m => m
  | fi, lst :: rest, m =>
      buildMapAux numFaces (fi + 1) rest (lst.foldl (insertOne numFaces fi) m)

/-- The full `imageScoreMap` of search.ts:212-228, in insertion order. -/
def buildMap (numFaces : Nat) (perFaceResults : List (List SearchResult)) :
    List (SearchResult × List ℚ) :=
  buildMapAux numFaces 0 perFaceResults []

/-- The matched-face count of search.ts:233:
`scores.filter((s) => s > 0).length` — positions with *strictly positive*
score. -/
def matchedCount (scores : List ℚ) : Nat :=
  (scores.filter (fun s => 0 < s)).length

/-- The fused score of search.ts:236-243:
`avgScore = scores.reduce((sum, s) => sum + Math.max(0, s), 0) / numFaces`,
`matchRatio = matchedCount / numFaces`,
`combinedScore = avgScore * (0.5 + 0.5 * matchRatio)`. -/
def combinedScore (numFaces : Nat) (scores : List ℚ) : ℚ :=
  let avgScore := (scores.foldl (fun sum s => sum + max 0 s) 0) / (numFaces : ℚ)
  let matchRatio := (matchedCount scores : ℚ) / (numFaces : ℚ)
  avgScore * (1/2 + 1/2 * matchRatio)

/-- The scoring loop of search.ts:231-246: entries with `matchedCount == 0`
are skipped (`continue`), the others are pushed, in map order, as
`{ result: {...result, score: combinedScore}, combinedScore }`. -/
def scoreEntries (numFaces : Nat) (m : List (SearchResult × List ℚ)) :
    List (SearchResult × ℚ) :=
  (m.filter (fun e => matchedCount e.2 ≠ 0)).map
    (fun e => ({ e.1 with score := combinedScore numFaces e.2 },
               combinedScore numFaces e.2))

/-- Insertion into a descending-sorted list, placing the new element after
every element of greater-or-equal key (the stable position). -/
def insertDesc (x : SearchResult × ℚ) : List (SearchResult × ℚ) →
    List (SearchResult × ℚ)
  | [] => [x]
  | y :: ys => if y.2 ≤ x.2 then x :: y :: ys else y :: insertDesc x ys

/-- Stable descending sort by `combinedScore`, modelling
`scored.sort((a, b) => b.combinedScore - a.combinedScore)` (search.ts:248):
`Array.prototype.sort` is stable and orders by descending score under this
comparator, and a stable sort for a total preorder is unique, so this
insertion sort computes the same list. -/
def sortDesc (l : List (SearchResult × ℚ)) : List (SearchResult × ℚ) :=
  l.foldr insertDesc []

/-- The non-delegating branch of `searchByMultipleFaceEmbeddings`
(search.ts:198-249): independent per-face retrievals with `perFaceOptions`,
the `imageScoreMap`, the scoring loop, the descending sort, and
`scored.slice(0, options.limit).map((s) => s.result)`. -/
def fuseMany (single : FaceStore) (faceEmbeddings : List (List ℚ))
    (options : SearchOptions) : List SearchResult :=
  let numFaces := faceEmbeddings.length
  let perFaceResults :=
    faceEmbeddings.map (fun emb => single emb (perFaceOptions options))
  let scored := scoreEntries numFaces (buildMap numFaces perFaceResults)
  ((sortDesc scored).take options.limit).map Prod.fst

/-- `searchByMultipleFaceEmbeddings` (search.ts:184-250), parametrised by the
single-face store `single`.  A singleton descriptor list delegates directly
(search.ts:194-196; `faceEmbeddings[0]` is an array, hence always truthy). -/
def searchByMultipleFaceEmbeddings (single : FaceStore)
    (faceEmbeddings : List (List ℚ)) (options : SearchOptions) :
    List SearchResult :=
  match faceEmbeddings with
  | [emb] => single emb options
  | _ => fuseMany single faceEmbeddings options

/-- The score the spec assigns to candidate `i` in face query `results`: the
retrieved score when the query returned the photograph, the sentinel `-1`
otherwise (spec §4.3 step 1). -/
def faceScoreFor (results : List SearchResult) (i : Int) : ℚ :=
  match results.find? (fun r => r.id = i) with
  | some r => r.score
  | none => -1

/-- The fixed-length score vector of spec §4.3 step 1 for candidate `i`. -/
def specScores (perFace : List (List SearchResult)) (i : Int) : List ℚ :=
  perFace.map (fun results => faceScoreFor results i)

/-- One step of candidate collection: append a result unless its id was
already seen. -/
def occStep (acc : List SearchResult) (r : SearchResult) : List SearchResult :=
  if acc.any (fun x => x.id = r.id) then acc else acc ++ [r]

/-- The candidate photographs observed in any per-face result set, one
representative per id, in order of first occurrence (face-major). -/
def firstOccur (l : List SearchResult) : List SearchResult :=
  l.foldl occStep []

/-- Matched-count as the claim words it (spec §4.3 step 2): the number of face
queries whose result set contains the photograph. -/
def claimMatchedCount (perFace : List (List SearchResult)) (i : Int) : Nat :=
  (perFace.filter (fun results => results.any (fun r => r.id = i))).length

/-- The fused score exactly as claim C1 words it: `avgScore` is the sum of
`max(0, score_or_sentinel)` over the `N` positions divided by `N`,
`matchRatio` is presence-count over `N`, and `combinedScore` is
`avgScore * (0.5 + 0.5 * matchRatio)`. -/
def claimCombined (numFaces : Nat) (perFace : List (List SearchResult))
    (i : Int) : ℚ :=
  let avgScore :=
    ((specScores perFace i).map (fun s => max 0 s)).sum / (numFaces : ℚ)
  let matchRatio := (claimMatchedCount perFace i : ℚ) / (numFaces : ℚ)
  avgScore * (1/2 + 1/2 * matchRatio)

/-- Fusion as claim C1 states it, word for word: every candidate photograph
observed in at least one per-face result set receives a `combinedScore`
(with presence-based `matchedCount` and no discard step), candidates are
sorted by `combinedScore` descending and truncated to the requested limit. -/
def specClaimMany (single : FaceStore) (faceEmbeddings : List (List ℚ))
    (options : SearchOptions) : List SearchResult :=
  let numFaces := faceEmbeddings.length
  let perFace :=
    faceEmbeddings.map (fun emb => single emb (perFaceOptions options))
  let scored := (firstOccur perFace.flatten).map (fun r =>
    ({ r with score := claimCombined numFaces perFace r.id },
     claimCombined numFaces perFace r.id))
  ((sortDesc scored).take options.limit).map Prod.fst

/-- The amended fusion description: as claim C1, except that `matchedCount`
counts the positions whose retrieved score is strictly positive (rather than
mere presence in a result set), and any candidate with `matchedCount = 0` is
discarded before sorting.  Stated over per-candidate score-vector lookups, in
contrast to the incremental map the code builds. -/
def specAmendedMany (single : FaceStore) (faceEmbeddings : List (List ℚ))
    (options : SearchOptions) : List SearchResult :=
  let numFaces := faceEmbeddings.length
  let perFace :=
    faceEmbeddings.map (fun emb => single emb (perFaceOptions options))
  let kept := (firstOccur perFace.flatten).filter
    (fun r => matchedCount (specScores perFace r.id) ≠ 0)
  let scored := kept.map (fun r =>
    ({ r with score := combinedScore numFaces (specScores perFace r.id) },
     combinedScore numFaces (specScores perFace r.id)))
  ((sortDesc scored).take options.limit).map Prod.fst

/-- The map-building step over an index-annotated result. -/
def pairStep (numFaces : Nat) (m : List (SearchResult × List ℚ))
    (p : Nat × SearchResult) : List (SearchResult × List ℚ) :=
  insertOne numFaces p.1 m p.2

/-- The per-face result lists flattened to index-annotated results, indices
starting at `fi`. -/
def flatAux : Nat → List (List SearchResult) → List (Nat × SearchResult)
  | _, [] => []
  | fi, lst :: rest => lst.map (fun r => (fi, r)) ++ flatAux (fi + 1) rest

/-- The score-vector update performed for candidate `i` by one
index-annotated result. -/
def scoreStep (i : Int) (sc : List ℚ) (p : Nat × SearchResult) : List ℚ :=
  if p.2.id = i then sc.set p.1 p.2.score else sc

/-- The score vector accumulated for candidate `i` by a list of
index-annotated results, starting from the all-sentinel vector. -/
def scoresOf (numFaces : Nat) (ps : List (Nat × SearchResult)) (i : Int) :
    List ℚ :=
  ps.foldl (scoreStep i) (List.replicate numFaces (-1 : ℚ))

/-- The per-face score writes performed face by face, indices starting at
`fi`. -/
def writeScores (i : Int) : Nat → List (List SearchResult) → List ℚ → List ℚ
  | _, [], init => init
  | fi, lst :: rest, init =>
      writeScores i (fi + 1) rest
        (lst.foldl
          (fun sc r => if r.id = i then sc.set fi r.score else sc) init)

/-- The fusion of claim C1, as a full search function (singleton lists
delegate, as in the code). -/
def specFusionClaim (single : FaceStore) (faceEmbeddings : List (List ℚ))
    (options : SearchOptions) : List SearchResult :=
  match faceEmbeddings with
  | [emb] => single emb options
  | _ => specClaimMany single faceEmbeddings options

/-- The amended fusion, as a full search function. -/
def specFusionAmended (single : FaceStore) (faceEmbeddings : List (List ℚ))
    (options : SearchOptions) : List SearchResult :=
  match faceEmbeddings with
  | [emb] => single emb options
  | _ => specAmendedMany single faceEmbeddings options

/-- Page size of the session (useImageSearch.ts:14, `PAGE_SIZE = 20`). -/
def PAGE_SIZE : Nat := 20

/-- An uploaded image blob; its contents are only ever passed to the encoder
oracle, so they are abstracted to an opaque token. -/
abbrev Blob : Type := Nat

/-- The external collaborators consumed by the `useImageSearch` hook: the
text/image encoder (`encoder.encodeText` / `encoder.encodeImage`), the
whole-image vector store `searchByEmbedding`, the stored-descriptor lookup
`getImageEmbedding` (search.ts:87-100, returning `null` as `none` when no row
matches), and the single-face store `searchByFaceEmbedding`.  All are
read-only computations, hence modelled as pure oracles. -/
structure Oracles where
  encodeText : String → List ℚ
  encodeImage : Blob → List ℚ
  searchEmb : List ℚ → SearchOptions → List SearchResult
  getImageEmbedding : Int → Option (List ℚ)
  single : FaceStore

/-- The React state of `useImageSearch` (part_002 lines 21-32): `results`,
`currentEmbedding`, `offset`, `hasMore`, `isSearching`, `message`,
`selectedEvents`, `currentFaceEmbeddings`. -/
structure SessionState where
  results : List SearchResult
  currentEmbedding : Option (List ℚ)
  offset : Nat
  hasMore : Bool
  isSearching : Bool
  message : String
  selectedEvents : List String
  currentFaceEmbeddings : Option (List (List ℚ))
deriving DecidableEq

/-- The initial hook state (useState initialisers). -/
def initialSession : SessionState :=
  { results := [], currentEmbedding := none, offset := 0, hasMore := false,
    isSearching := false, message := "", selectedEvents := [],
    currentFaceEmbeddings := none }

/-- The idiom `events = eventNames ?? selectedEvents` of every search
operation. -/
def resolvedEvents (s : SessionState) (eventNames : Option (List String)) :
    List String :=
  eventNames.getD s.selectedEvents

/-- The idiom `events.length > 0 ? events : undefined`. -/
def evOpt (events : List String) : Option (List String) :=
  if events.length = 0 then none else some events

/-- The idiom `if (eventNames) setSelectedEvents(eventNames)` executed on the
success path of every search operation. -/
def updatedSelected (s : SessionState) (eventNames : Option (List String)) :
    List String :=
  eventNames.getD s.selectedEvents

/-- The guard `if (!query.trim()) return` of `searchByText` (part_002
lines 47-50): a JS string trims to the empty string exactly when every one of
its characters is whitespace.  (`String.trim` itself is defined by
well-founded recursion on byte positions and does not reduce, so the guard is
embedded through this equivalent characterisation.) -/
def isBlank (query : String) : Bool :=
  query.data.all Char.isWhitespace

/-- The retrieval issued by `searchByText` (part_002 lines 53-64). -/
def textRetrieval (o : Oracles) (s : SessionState) (query : String)
    (eventNames : Option (List String)) : List SearchResult :=
  o.searchEmb (o.encodeText query)
    { limit := PAGE_SIZE, offset := 0,
      eventNames := evOpt (resolvedEvents s eventNames), tagNames := none }

/-- `searchByText` (part_002 lines 42-77), from call to resolution, applied to
the session state current at resolution time.  An all-whitespace query only
sets the message (the early return precedes `setIsSearching(true)`). -/
def searchByTextS (o : Oracles) (s : SessionState) (query : String)
    (eventNames : Option (List String)) : SessionState :=
  if isBlank query then
    { s with message := "Please enter a search query." }
  else
    let hits := textRetrieval o s query eventNames
    { s with
      results := hits
      currentEmbedding := some (o.encodeText query)
      currentFaceEmbeddings := none
      offset := PAGE_SIZE
      hasMore := hits.length == PAGE_SIZE
      isSearching := false
      message := "Found " ++ toString hits.length ++ " images for \"" ++
        query ++ "\"."
      selectedEvents := updatedSelected s eventNames }

/-- The retrieval issued by `searchByImage` (part_002 lines 86-97). -/
def imageRetrieval (o : Oracles) (s : SessionState) (blob : Blob)
    (eventNames : Option (List String)) : List SearchResult :=
  o.searchEmb (o.encodeImage blob)
    { limit := PAGE_SIZE, offset := 0,
      eventNames := evOpt (resolvedEvents s eventNames), tagNames := none }

/-- `searchByImage` (part_002 lines 79-110). -/
def searchByImageS (o : Oracles) (s : SessionState) (blob : Blob)
    (eventNames : Option (List String)) : SessionState :=
  let hits := imageRetrieval o s blob eventNames
  { s with
    results := hits
    currentEmbedding := some (o.encodeImage blob)
    currentFaceEmbeddings := none
    offset := PAGE_SIZE
    hasMore := hits.length == PAGE_SIZE
    isSearching := false
    message := "Found " ++ toString hits.length ++ " similar images."
    selectedEvents := updatedSelected s eventNames }

/-- The retrieval issued by `searchByStoredEmbedding` once a stored descriptor
has been found (part_002 lines 129-138). -/
def storedRetrieval (o : Oracles) (s : SessionState) (embedding : List ℚ)
    (eventNames : Option (List String)) : List SearchResult :=
  o.searchEmb embedding
    { limit := PAGE_SIZE, offset := 0,
      eventNames := evOpt (resolvedEvents s eventNames), tagNames := none }

/-- `searchByStoredEmbedding` (part_002 lines 112-151).  When
`getImageEmbedding` finds no stored descriptor the operation sets the message
and returns early — the `finally` clause still clears `isSearching`, and every
other field is left untouched. -/
def searchByStoredEmbeddingS (o : Oracles) (s : SessionState) (imageId : Int)
    (eventNames : Option (List String)) : SessionState :=
  match o.getImageEmbedding imageId with
  | none =>
      { s with
        message := "Embedding not found for this image."
        isSearching := false }
  | some embedding =>
      let hits := storedRetrieval o s embedding eventNames
      { s with
        results := hits
        currentEmbedding := some embedding
        currentFaceEmbeddings := none
        offset := PAGE_SIZE
        hasMore := hits.length == PAGE_SIZE
        isSearching := false
        message := "Found " ++ toString hits.length ++ " similar images."
        selectedEvents := updatedSelected s eventNames }

/-- The retrieval issued by `searchByFace` (part_002 lines 159-163). -/
def faceRetrieval (o : Oracles) (s : SessionState) (faceEmbedding : List ℚ)
    (eventNames : Option (List String)) : List SearchResult :=
  o.single faceEmbedding
    { limit := PAGE_SIZE, offset := 0,
      eventNames := evOpt (resolvedEvents s eventNames), tagNames := none }

/-- `searchByFace` (part_002 lines 153-176). -/
def searchByFaceS (o : Oracles) (s : SessionState) (faceEmbedding : List ℚ)
    (eventNames : Option (List String)) : SessionState :=
  let hits := faceRetrieval o s faceEmbedding eventNames
  { s with
    results := hits
    currentEmbedding := none
    currentFaceEmbeddings := some [faceEmbedding]
    offset := PAGE_SIZE
    hasMore := hits.length == PAGE_SIZE
    isSearching := false
    message := "Found " ++ toString hits.length ++
      " images with similar faces."
    selectedEvents := updatedSelected s eventNames }

/-- The fused retrieval issued by `searchByFaces` (part_002 lines 185-193). -/
def facesRetrieval (o : Oracles) (s : SessionState)
    (faceEmbeddings : List (List ℚ)) (eventNames : Option (List String)) :
    List SearchResult :=
  searchByMultipleFaceEmbeddings o.single faceEmbeddings
    { limit := PAGE_SIZE, offset := 0,
      eventNames := evOpt (resolvedEvents s eventNames), tagNames := none }

/-- `searchByFaces` (part_002 lines 178-210); an empty descriptor list returns
without doing anything (the guard precedes `setIsSearching(true)`). -/
def searchByFacesS (o : Oracles) (s : SessionState)
    (faceEmbeddings : List (List ℚ)) (eventNames : Option (List String)) :
    SessionState :=
  if faceEmbeddings.length = 0 then s
  else
    let hits := facesRetrieval o s faceEmbeddings eventNames
    { s with
      results := hits
      currentEmbedding := none
      currentFaceEmbeddings := some faceEmbeddings
      offset := PAGE_SIZE
      hasMore := hits.length == PAGE_SIZE
      isSearching := false
      message :=
        if faceEmbeddings.length = 1 then
          "Found " ++ toString hits.length ++ " images with similar faces."
        else
          "Found " ++ toString hits.length ++ " images with all " ++
            toString faceEmbeddings.length ++ " faces."
      selectedEvents := updatedSelected s eventNames }

/-- `loadMore` (part_002 lines 212-280).  A face query with exactly one stored
descriptor paginates by offset and appends; a face query with any other number
of stored descriptors re-runs the fused retrieval with limit `offset +
PAGE_SIZE` and offset `0` and replaces the page wholesale; an embedding query
paginates by offset and appends; with neither an embedding nor face
descriptors the call is a no-op. -/
def loadMoreS (o : Oracles) (s : SessionState) : SessionState :=
  let evNames := evOpt s.selectedEvents
  match s.currentFaceEmbeddings with
  | some faceEmbeddings =>
    match faceEmbeddings with
    | [fe] =>
      let hits := o.single fe
        { limit := PAGE_SIZE, offset := s.offset,
          eventNames := evNames, tagNames := none }
      { s with
        results := s.results ++ hits
        offset := s.offset + hits.length
        hasMore := hits.length == PAGE_SIZE
        isSearching := false
        message := "Showing " ++ toString (s.results.length + hits.length) ++
          " images." }
    | _ =>
      let newLimit := s.offset + PAGE_SIZE
      let hits := searchByMultipleFaceEmbeddings o.single faceEmbeddings
        { limit := newLimit, offset := 0,
          eventNames := evNames, tagNames := none }
      { s with
        results := hits
        offset := newLimit
        hasMore := decide (s.results.length < hits.length) &&
          (hits.length == newLimit)
        isSearching := false
        message := "Showing " ++ toString hits.length ++ " images." }
  | none =>
    match s.currentEmbedding with
    | none => s
    | some embedding =>
      let hits := o.searchEmb embedding
        { limit := PAGE_SIZE, offset := s.offset,
          eventNames := evNames, tagNames := none }
      { s with
        results := s.results ++ hits
        offset := s.offset + hits.length
        hasMore := hits.length == PAGE_SIZE
        isSearching := false
        message := "Showing " ++ toString (s.results.length + hits.length) ++
          " images." }

/-- One session event: a search operation splits into its synchronous prefix
(`setIsSearching(true)`, modelled by `startSearch`) and its asynchronous
resolution (the `finish…` events, which apply the operation's state writes to
whatever session state is current when the retrieval resolves).  part_002
contains no generation counter, so a resolution applies unconditionally. -/
inductive SessionEvent where
  | startSearch : SessionEvent
  | finishText (query : String) (eventNames : Option (List String)) :
      SessionEvent
  | finishImage (blob : Blob) (eventNames : Option (List String)) :
      SessionEvent
  | finishStored (imageId : Int) (eventNames : Option (List String)) :
      SessionEvent
  | finishFace (faceEmbedding : List ℚ)
      (eventNames : Option (List String)) : SessionEvent
  | finishFaces (faceEmbeddings : List (List ℚ))
      (eventNames : Option (List String)) : SessionEvent

/-- Apply one session event. -/
def stepSession (o : Oracles) (s : SessionState) : SessionEvent → SessionState
  | .startSearch => { s with isSearching := true }
  | .finishText query eventNames => searchByTextS o s query eventNames
  | .finishImage blob eventNames => searchByImageS o s blob eventNames
  | .finishStored imageId eventNames =>
      searchByStoredEmbeddingS o s imageId eventNames
  | .finishFace faceEmbedding eventNames =>
      searchByFaceS o s faceEmbedding eventNames
  | .finishFaces faceEmbeddings eventNames =>
      searchByFacesS o s faceEmbeddings eventNames

/-- Run a list of session events in order. -/
def runSession (o : Oracles) (s : SessionState)
    (events : List SessionEvent) : SessionState :=
  events.foldl (stepSession o) s

/-- The hits a finish event delivers when its operation reaches its success
path in session state `s` (`none` for `startSearch`, for an all-whitespace
text query, for an empty face list, and for a stored-descriptor miss). -/
def finishHits (o : Oracles) (s : SessionState) :
    SessionEvent → Option (List SearchResult)
  | .startSearch => none
  | .finishText query eventNames =>
      if isBlank query then none
      else some (textRetrieval o s query eventNames)
  | .finishImage blob eventNames => some (imageRetrieval o s blob eventNames)
  | .finishStored imageId eventNames =>
      (o.getImageEmbedding imageId).map
        (fun embedding => storedRetrieval o s embedding eventNames)
  | .finishFace faceEmbedding eventNames =>
      some (faceRetrieval o s faceEmbedding eventNames)
  | .finishFaces faceEmbeddings eventNames =>
      if faceEmbeddings.length = 0 then none
      else some (facesRetrieval o s faceEmbeddings eventNames)

/-- Fixture: a store row with id 1 and similarity score exactly 0 (cosine
similarity of orthogonal descriptors; reachable whenever a face query's
`LIMIT` exceeds the number of strictly-positive matches). -/
def exResultA : SearchResult :=
  { id := 1, image_url := "a", score := 0 }

/-- Fixture: a store row with id 2 and score 1/2. -/
def exResultB : SearchResult :=
  { id := 2, image_url := "b", score := 1/2 }

/-- Fixture single-face store: descriptor `[1]` retrieves photo 1 with score
0, descriptor `[2]` retrieves photo 2 with score 1/2. -/
def exSingle : FaceStore := fun emb _ =>
  if emb = [1] then [exResultA] else if emb = [2] then [exResultB] else []

/-- Fixture options: one page of 20, offset 0, no filters. -/
def exOptions : SearchOptions :=
  { limit := 20, offset := 0, eventNames := none, tagNames := none }

/-- Fixture result delivered for the text query `A`. -/
def exHitA : SearchResult :=
  { id := 1, image_url := "pa", score := 1 }

/-- Fixture result delivered for the text query `B`. -/
def exHitB : SearchResult :=
  { id := 2, image_url := "pb", score := 1 }

/-- Fixture page of 20 distinct rows, all with score 1. -/
def exPage20 : List SearchResult :=
  (List.range 20).map (fun k => { id := (k : Int), image_url := "", score := 1 })

/-- Fixture oracles: text queries `A`/`B` encode to `[1]`/`[2]` and retrieve
`exHitA`/`exHitB`; the face store serves `exPage20` for descriptor `[1]` and
nothing for any other; no photograph has a stored descriptor. -/
def exOracles : Oracles :=
  { encodeText := fun query => if query = "A" then [1] else [2]
    encodeImage := fun _ => []
    searchEmb := fun emb _ =>
      if emb = [1] then [exHitA] else if emb = [2] then [exHitB] else []
    getImageEmbedding := fun _ => none
    single := fun emb _ => if emb = [1] then exPage20 else [] }

/-- Fixture trace: query A submitted, then query B submitted while A is in
flight, then B's retrieval resolves, then A's late retrieval resolves. -/
def exOverlapTrace : List SessionEvent :=
  [SessionEvent.startSearch, SessionEvent.startSearch,
   SessionEvent.finishText "B" (some []), SessionEvent.finishText "A" (some [])]

/-- Fixture session after a completed initial multi-face search: a full first
page of 20, offset 20, two stored face descriptors. -/
def exMultiState : SessionState :=
  { results := exPage20, currentEmbedding := none, offset := 20
    hasMore := true, isSearching := false, message := ""
    selectedEvents := [], currentFaceEmbeddings := some [[1], [2]] }

/-- Fixture session showing a prior (nonempty) Ready page of an embedding
query. -/
def exReadyState : SessionState :=
  { results := [exHitA], currentEmbedding := none, offset := 20
    hasMore := false, isSearching := false, message := ""
    selectedEvents := [], currentFaceEmbeddings := none }

/-- A DOM rectangle (`getBoundingClientRect` result or a rendered box), in
display units. -/
structure DomRect where
  left : ℚ
  top : ℚ
  width : ℚ
  height : ℚ
deriving DecidableEq

/-- A crop rectangle in original-image pixel units (`CropRect` in
`src/web/src/types`); `Math.round` makes all components integral. -/
structure CropRect where
  x : Int
  y : Int
  w : Int
  h : Int
deriving DecidableEq

/-- JavaScript `Math.round`: round half toward positive infinity. -/
def jround (q : ℚ) : Int :=
  ⌊q + 1/2⌋

/-- `getRenderedRect` (GalleryItem.tsx:163-182): the rectangle actually
covered by the image inside an `object-fit` element.  `ir` is the element's
bounding client rect; a zero natural dimension (falsy in JS) returns `ir`
unchanged; `contain`/`scale-down` letterboxes with a uniform scale factor. -/
def getRenderedRect (ir : DomRect) (natW natH : ℚ) (fit : String) : DomRect :=
  if natW = 0 ∨ natH = 0 then ir
  else if fit = "contain" ∨ fit = "scale-down" then
    let ratio := min (ir.width / natW) (ir.height / natH)
    let rw := natW * ratio
    let rh := natH * ratio
    { left := ir.left + (ir.width - rw) / 2
      top := ir.top + (ir.height - rh) / 2
      width := rw
      height := rh }
  else
    { left := ir.left, top := ir.top, width := ir.width, height := ir.height }

/-- The crop overlay's `handleMouseUp` (GalleryItem.tsx:256-277).  `s` and `c`
are the drag start and current points, already relative to the rendered
rectangle `rr` (the mouse handlers subtract `rr.left`/`rr.top` and clamp).
A selection of width or height not exceeding 5 display units yields no crop;
otherwise the display rectangle is scaled by `naturalWidth / rr.width` and
`naturalHeight / rr.height` and rounded to whole pixels. -/
def handleMouseUp (s c : ℚ × ℚ) (naturalWidth naturalHeight : ℚ)
    (rr : DomRect) : Option CropRect :=
  if 5 < |c.1 - s.1| ∧ 5 < |c.2 - s.2| then
    some { x := jround (min s.1 c.1 * (naturalWidth / rr.width))
           y := jround (min s.2 c.2 * (naturalHeight / rr.height))
           w := jround (|c.1 - s.1| * (naturalWidth / rr.width))
           h := jround (|c.2 - s.2| * (naturalHeight / rr.height)) }
  else
    none

theorem buildMapAux_eq_foldl (numFaces : Nat) :
    ∀ (faces : List (List SearchResult)) (fi : Nat)
      (m : List (SearchResult × List ℚ)),
    buildMapAux numFaces fi faces m =
      (flatAux fi faces).foldl (pairStep numFaces) m := by
  intro faces
  induction faces with
  | nil => intro fi m; rfl
  | cons lst rest ih =>
      intro fi m
      simp only [buildMapAux, flatAux, List.foldl_append, List.foldl_map, ih,
        pairStep]

theorem any_id_foldl_occStep (i : Int) :
    ∀ (l : List SearchResult) (acc : List SearchResult),
    (l.foldl occStep acc).any (fun x => x.id = i) =
      (acc.any (fun x => x.id = i) || l.any (fun x => x.id = i)) := by
  intro l
  induction l with
  | nil => intro acc; simp
  | cons r t ih =>
      intro acc
      rw [List.foldl_cons, ih, List.any_cons]
      by_cases hacc : acc.any (fun x => x.id = r.id)
      · have hstep : occStep acc r = acc := by simp [occStep, hacc]
        rw [hstep]
        by_cases hri : r.id = i
        · have hi : acc.any (fun x => x.id = i) = true := by
            subst hri; exact hacc
          simp [hi]
        · simp [hri]
      · have hstep : occStep acc r = acc ++ [r] := by simp [occStep, hacc]
        rw [hstep]
        simp [List.any_append, Bool.or_assoc]

theorem mem_foldl_occStep (r : SearchResult) :
    ∀ (l acc : List SearchResult),
    r ∈ l.foldl occStep acc → r ∈ acc ∨ r ∈ l := by
  intro l
  induction l with
  | nil => intro acc h; exact Or.inl h
  | cons q t ih =>
      intro acc h
      rw [List.foldl_cons] at h
      rcases ih (occStep acc q) h with h1 | h1
      · unfold occStep at h1
        by_cases hq : acc.any (fun x => x.id = q.id)
        · rw [if_pos hq] at h1
          exact Or.inl h1
        · rw [if_neg hq] at h1
          rcases List.mem_append.mp h1 with h2 | h2
          · exact Or.inl h2
          · simp only [List.mem_singleton] at h2
            subst h2
            exact Or.inr (List.mem_cons_self _ _)
      · exact Or.inr (List.mem_cons_of_mem _ h1)

theorem foldl_scoreStep_no_match (i : Int) :
    ∀ (ps : List (Nat × SearchResult)) (init : List ℚ),
    (∀ p ∈ ps, p.2.id ≠ i) → ps.foldl (scoreStep i) init = init := by
  intro ps
  induction ps with
  | nil => intro init _; rfl
  | cons p t ih =>
      intro init h
      rw [List.foldl_cons]
      have hp : p.2.id ≠ i := h p (List.mem_cons_self _ _)
      have hstep : scoreStep i init p = init := by simp [scoreStep, hp]
      rw [hstep]
      exact ih init (fun q hq => h q (List.mem_cons_of_mem _ hq))

theorem scoresOf_append (numFaces : Nat) (ps : List (Nat × SearchResult))
    (p : Nat × SearchResult) (i : Int) :
    scoresOf numFaces (ps ++ [p]) i =
      scoreStep i (scoresOf numFaces ps i) p := by
  simp [scoresOf, List.foldl_append]

theorem foldl_pairStep_eq (numFaces : Nat) (ps : List (Nat × SearchResult)) :
    ps.foldl (pairStep numFaces) [] =
      (firstOccur (ps.map Prod.snd)).map
        (fun r => (r, scoresOf numFaces ps r.id)) := by
  induction ps using List.reverseRecOn with
  | nil => rfl
  | append_singleton ps p ih =>
      rw [List.foldl_append, List.foldl_cons, List.foldl_nil, ih]
      simp only [firstOccur, List.map_append, List.map_cons, List.map_nil,
        List.foldl_append, List.foldl_cons, List.foldl_nil, pairStep]
      cases hb : (ps.map Prod.snd).any (fun x => x.id = p.2.id) with
      | true =>
          have hFany : ((ps.map Prod.snd).foldl occStep []).any
              (fun x => x.id = p.2.id) = true := by
            rw [any_id_foldl_occStep]; simp [hb]
          have hocc : occStep ((ps.map Prod.snd).foldl occStep []) p.2 =
              (ps.map Prod.snd).foldl occStep [] := by
            simp [occStep, hFany]
          have hcond : ((((ps.map Prod.snd).foldl occStep [])).map
                (fun r => (r, scoresOf numFaces ps r.id))).any
              (fun e => e.1.id = p.2.id) = true := by
            simpa [List.any_map, Function.comp] using hFany
          rw [hocc]
          unfold insertOne
          rw [if_pos hcond, List.map_map]
          have hfun : ((fun (e : SearchResult × List ℚ) =>
                  if e.1.id = p.2.id then
                    (e.1, e.2.set p.1 p.2.score) else e) ∘
                (fun (r : SearchResult) =>
                  (r, scoresOf numFaces ps r.id))) =
              (fun (r : SearchResult) =>
                (r, scoresOf numFaces (ps ++ [p]) r.id)) := by
            funext r
            simp only [Function.comp_apply, scoresOf_append, scoreStep]
            by_cases hr : r.id = p.2.id
            · have hr2 : p.2.id = r.id := hr.symm
              rw [if_pos hr, if_pos hr2]
            · have hr2 : ¬ p.2.id = r.id := fun hcontra => hr hcontra.symm
              rw [if_neg hr, if_neg hr2]
          rw [hfun]
      | false =>
          have hFany : ((ps.map Prod.snd).foldl occStep []).any
              (fun x => x.id = p.2.id) = false := by
            rw [any_id_foldl_occStep]; simp [hb]
          have hocc : occStep ((ps.map Prod.snd).foldl occStep []) p.2 =
              (ps.map Prod.snd).foldl occStep [] ++ [p.2] := by
            simp [occStep, hFany]
          have hcond : ((((ps.map Prod.snd).foldl occStep [])).map
                (fun r => (r, scoresOf numFaces ps r.id))).any
              (fun e => e.1.id = p.2.id) = false := by
            simpa [List.any_map, Function.comp] using hFany
          rw [hocc]
          unfold insertOne
          rw [if_neg (by simp [hcond]), List.map_append, List.map_cons,
            List.map_nil]
          have hids : ∀ x ∈ ps.map Prod.snd, ¬ x.id = p.2.id := by
            intro x hx
            have := List.any_eq_false.mp hb x hx
            simpa using this
          have hnomatch : ∀ q ∈ ps, q.2.id ≠ p.2.id := by
            intro q hq
            exact hids q.2 (List.mem_map.mpr ⟨q, hq, rfl⟩)
          have hmap : ((ps.map Prod.snd).foldl occStep []).map
                (fun r => (r, scoresOf numFaces ps r.id)) =
              ((ps.map Prod.snd).foldl occStep []).map
                (fun r => (r, scoresOf numFaces (ps ++ [p]) r.id)) := by
            apply List.map_congr_left
            intro r hr
            have hmem : r ∈ ps.map Prod.snd := by
              rcases mem_foldl_occStep r (ps.map Prod.snd) [] hr with h0 | h0
              · exact absurd h0 (List.not_mem_nil r)
              · exact h0
            have hne : ¬ p.2.id = r.id :=
              fun hcontra => hids r hmem hcontra.symm
            rw [scoresOf_append]
            simp [scoreStep, hne]
          have hnew : scoresOf numFaces (ps ++ [p]) p.2.id =
              (List.replicate numFaces (-1 : ℚ)).set p.1 p.2.score := by
            rw [scoresOf_append]
            have hbase : scoresOf numFaces ps p.2.id =
                List.replicate numFaces (-1 : ℚ) :=
              foldl_scoreStep_no_match p.2.id ps _ hnomatch
            simp [scoreStep, hbase]
          rw [hmap, hnew]

theorem flatAux_map_snd :
    ∀ (faces : List (List SearchResult)) (fi : Nat),
    (flatAux fi faces).map Prod.snd = faces.flatten := by
  intro faces
  induction faces with
  | nil => intro fi; rfl
  | cons lst rest ih =>
      intro fi
      simp [flatAux, List.map_append, List.map_map, ih, Function.comp]

theorem flatAux_foldl_scoreStep (i : Int) :
    ∀ (faces : List (List SearchResult)) (fi : Nat) (init : List ℚ),
    (flatAux fi faces).foldl (scoreStep i) init = writeScores i fi faces init := by
  intro faces
  induction faces with
  | nil => intro fi init; rfl
  | cons lst rest ih =>
      intro fi init
      simp only [flatAux, writeScores, List.foldl_append, List.foldl_map, ih,
        scoreStep]

theorem set_append_cons (l1 : List ℚ) (a : ℚ) (l2 : List ℚ) (b : ℚ) :
    (l1 ++ a :: l2).set l1.length b = l1 ++ b :: l2 := by
  induction l1 with
  | nil => rfl
  | cons x xs ih => simp [List.set, ih]

theorem foldl_set_no_match (i : Int) (fi : Nat) :
    ∀ (lst : List SearchResult) (init : List ℚ),
    (∀ r ∈ lst, r.id ≠ i) →
    lst.foldl (fun sc r => if r.id = i then sc.set fi r.score else sc) init =
      init := by
  intro lst
  induction lst with
  | nil => intro init _; rfl
  | cons r t ih =>
      intro init h
      rw [List.foldl_cons,
        if_neg (h r (List.mem_cons_self _ _))]
      exact ih init (fun q hq => h q (List.mem_cons_of_mem _ hq))

theorem foldl_set_nodup (i : Int) (fi : Nat) :
    ∀ (lst : List SearchResult) (init : List ℚ),
    (lst.map (fun r => r.id)).Nodup →
    lst.foldl (fun sc r => if r.id = i then sc.set fi r.score else sc) init =
      (match lst.find? (fun r => r.id = i) with
       | some x => init.set fi x.score
       | none => init) := by
  intro lst
  induction lst with
  | nil => intro init _; rfl
  | cons r t ih =>
      intro init hnd
      have hnd' : r.id ∉ t.map (fun r => r.id) ∧
          (t.map (fun r => r.id)).Nodup := by
        simpa [List.nodup_cons] using hnd
      rw [List.foldl_cons]
      by_cases hr : r.id = i
      · rw [if_pos hr]
        have hfind : (r :: t).find? (fun x => x.id = i) = some r :=
          List.find?_cons_of_pos _ (by simpa using hr)
        rw [hfind]
        apply foldl_set_no_match
        intro x hx hxi
        exact hnd'.1 (List.mem_map.mpr ⟨x, hx, hxi.trans hr.symm⟩)
      · rw [if_neg hr]
        have hfind : (r :: t).find? (fun x => x.id = i) =
            t.find? (fun x => x.id = i) :=
          List.find?_cons_of_neg _ (by simpa using hr)
        rw [hfind]
        exact ih init hnd'.2

theorem foldl_set_over_append (i : Int) (lst : List SearchResult)
    (pre tail : List ℚ) (hnd : (lst.map (fun r => r.id)).Nodup) :
    lst.foldl (fun sc r => if r.id = i then sc.set pre.length r.score else sc)
        (pre ++ (-1 : ℚ) :: tail) =
      pre ++ faceScoreFor lst i :: tail := by
  rw [foldl_set_nodup i pre.length lst (pre ++ (-1 : ℚ) :: tail) hnd]
  cases hfind : lst.find? (fun r => r.id = i) with
  | none => simp [hfind, faceScoreFor]
  | some x =>
      simp only [hfind]
      rw [set_append_cons]
      simp [faceScoreFor, hfind]

theorem writeScores_spec (i : Int) :
    ∀ (faces : List (List SearchResult)) (pre : List ℚ),
    (∀ lst ∈ faces, (lst.map (fun r => r.id)).Nodup) →
    writeScores i pre.length faces
        (pre ++ List.replicate faces.length (-1 : ℚ)) =
      pre ++ faces.map (fun lst => faceScoreFor lst i) := by
  intro faces
  induction faces with
  | nil => intro pre _; simp [writeScores]
  | cons lst rest ih =>
      intro pre h
      have hlst : (lst.map (fun r => r.id)).Nodup :=
        h lst (List.mem_cons_self _ _)
      have hrest : ∀ l ∈ rest, (l.map (fun r => r.id)).Nodup :=
        fun l hl => h l (List.mem_cons_of_mem _ hl)
      simp only [List.length_cons, List.replicate_succ, writeScores]
      rw [foldl_set_over_append i lst pre (List.replicate rest.length (-1)) hlst,
        List.map_cons]
      have hres := ih (pre ++ [faceScoreFor lst i]) hrest
      simpa [List.append_assoc] using hres

theorem scoresOf_flat (faces : List (List SearchResult)) (i : Int)
    (h : ∀ lst ∈ faces, (lst.map (fun r => r.id)).Nodup) :
    scoresOf faces.length (flatAux 0 faces) i = specScores faces i := by
  unfold scoresOf
  rw [flatAux_foldl_scoreStep]
  have hspec := writeScores_spec i faces [] h
  simpa [specScores] using hspec

theorem buildMap_eq_spec (faces : List (List SearchResult))
    (h : ∀ lst ∈ faces, (lst.map (fun r => r.id)).Nodup) :
    buildMap faces.length faces =
      (firstOccur faces.flatten).map
        (fun r => (r, specScores faces r.id)) := by
  unfold buildMap
  rw [buildMapAux_eq_foldl, foldl_pairStep_eq, flatAux_map_snd]
  have hfun : (fun (r : SearchResult) =>
        (r, scoresOf faces.length (flatAux 0 faces) r.id)) =
      (fun (r : SearchResult) => (r, specScores faces r.id)) :=
    funext (fun r => by rw [scoresOf_flat faces r.id h])
  rw [hfun]

theorem scoreEntries_of_map (numFaces : Nat) (C : List SearchResult)
    (f : Int → List ℚ) :
    scoreEntries numFaces (C.map (fun r => (r, f r.id))) =
      (C.filter (fun r => matchedCount (f r.id) ≠ 0)).map
        (fun r => ({ r with score := combinedScore numFaces (f r.id) },
                   combinedScore numFaces (f r.id))) := by
  induction C with
  | nil => rfl
  | cons r t ih =>
      simp only [scoreEntries, ne_eq, decide_not] at ih ⊢
      simp only [List.map_cons, List.filter_cons]
      by_cases hr : matchedCount (f r.id) = 0
      · simp [hr, ih]
      · simp [hr, ih]

theorem fuseMany_eq_specAmendedMany (single : FaceStore)
    (faceEmbeddings : List (List ℚ)) (options : SearchOptions)
    (h : ∀ emb ∈ faceEmbeddings,
      ((single emb (perFaceOptions options)).map (fun r => r.id)).Nodup) :
    fuseMany single faceEmbeddings options =
      specAmendedMany single faceEmbeddings options := by
  simp only [fuseMany, specAmendedMany]
  have hn : ∀ lst ∈ faceEmbeddings.map
      (fun emb => single emb (perFaceOptions options)),
      (lst.map (fun r => r.id)).Nodup := by
    intro lst hl
    obtain ⟨emb, hm, rfl⟩ := List.mem_map.mp hl
    exact h emb hm
  have hlen : faceEmbeddings.length =
      (faceEmbeddings.map
        (fun emb => single emb (perFaceOptions options))).length :=
    (List.length_map _ _).symm
  rw [hlen, buildMap_eq_spec _ hn, scoreEntries_of_map]

theorem foldl_max0_sum (l : List ℚ) :
    ∀ (a : ℚ), l.foldl (fun sum s => sum + max 0 s) a =
      a + (l.map (fun s => max 0 s)).sum := by
  induction l with
  | nil => intro a; simp
  | cons x t ih => intro a; simp [ih, add_assoc]

theorem sum_max0_nonneg (l : List ℚ) :
    0 ≤ (l.map (fun s => max 0 s)).sum := by
  apply List.sum_nonneg
  intro x hx
  obtain ⟨s, _, rfl⟩ := List.mem_map.mp hx
  exact le_max_left 0 s

theorem combinedScore_closed_form (n : Nat) (scores : List ℚ) :
    combinedScore n scores =
      (scores.map (fun s => max 0 s)).sum / (n : ℚ) *
        (1/2 + 1/2 * ((matchedCount scores : ℚ) / (n : ℚ))) := by
  simp [combinedScore, foldl_max0_sum]

/-- Claim C6, as stated, is falsified at the concrete instance N = 2,
s₁ = 1/2, s₂ = 0: a photograph returned by both face queries with scores
(1/2, 0) receives exactly the same `combinedScore` as a photograph returned
only by the first query with the same score 1/2 at the shared position
(score vector (1/2, -1) with the unmatched sentinel), because the code's
`matchedCount` counts only strictly positive scores — so the first
photograph does *not* rank strictly above the second. -/
theorem full_match_not_strictly_above_counterexample :
    combinedScore 2 [1/2, 0] = combinedScore 2 [1/2, -1] := by
  norm_num [combinedScore, matchedCount]

/-- Claim C6 amended: the strict ranking inequality holds provided the score
`sj` at the position where the second photograph is unmatched is strictly
positive (`sj > 0`); with `sj ≤ 0` the two fused scores coincide.  `l1` and
`l2` are the shared score prefix and suffix, so both vectors have the same
length N ≥ 2 and agree everywhere except at the distinguished position. -/
theorem full_match_ranks_strictly_above (l1 l2 : List ℚ) (sj : ℚ)
    (hpos : 0 < sj) (hN : 2 ≤ (l1 ++ sj :: l2).length) :
    combinedScore (l1 ++ sj :: l2).length (l1 ++ (-1 : ℚ) :: l2) <
      combinedScore (l1 ++ sj :: l2).length (l1 ++ sj :: l2) := by
  have hnlen : 0 < (l1 ++ sj :: l2).length := by
    simp only [List.length_append, List.length_cons]
    omega
  have hn : (0 : ℚ) < ((l1 ++ sj :: l2).length : ℚ) := by exact_mod_cast hnlen
  have hA : 0 ≤ (l1.map (fun s => max 0 s)).sum := sum_max0_nonneg l1
  have hB : 0 ≤ (l2.map (fun s => max 0 s)).sum := sum_max0_nonneg l2
  have hsum_full : ((l1 ++ sj :: l2).map (fun s => max 0 s)).sum =
      (l1.map (fun s => max 0 s)).sum +
        (sj + (l2.map (fun s => max 0 s)).sum) := by
    simp [List.map_append, List.sum_append, max_eq_right hpos.le]
  have hsum_miss : ((l1 ++ (-1 : ℚ) :: l2).map (fun s => max 0 s)).sum =
      (l1.map (fun s => max 0 s)).sum + (l2.map (fun s => max 0 s)).sum := by
    have h0 : max (0 : ℚ) (-1) = 0 := by norm_num
    simp [List.map_append, List.sum_append, h0]
  have hm_full : matchedCount (l1 ++ sj :: l2) =
      matchedCount l1 + (matchedCount l2 + 1) := by
    simp [matchedCount, List.filter_append, List.filter_cons, hpos]
  have hm_miss : matchedCount (l1 ++ (-1 : ℚ) :: l2) =
      matchedCount l1 + matchedCount l2 := by
    have hneg : ¬ ((0 : ℚ) < -1) := by norm_num
    simp [matchedCount, List.filter_append, List.filter_cons, hneg]
  rw [combinedScore_closed_form, combinedScore_closed_form, hsum_full,
    hsum_miss, hm_full, hm_miss]
  have hx : ((l1.map (fun s => max 0 s)).sum +
        (l2.map (fun s => max 0 s)).sum) / ((l1 ++ sj :: l2).length : ℚ) <
      ((l1.map (fun s => max 0 s)).sum +
        (sj + (l2.map (fun s => max 0 s)).sum)) /
          ((l1 ++ sj :: l2).length : ℚ) :=
    (div_lt_div_iff_of_pos_right hn).mpr (by linarith)
  have hy : 1/2 + 1/2 * (((matchedCount l1 + matchedCount l2 : Nat) : ℚ) /
        ((l1 ++ sj :: l2).length : ℚ)) ≤
      1/2 + 1/2 * (((matchedCount l1 + (matchedCount l2 + 1) : Nat) : ℚ) /
        ((l1 ++ sj :: l2).length : ℚ)) := by
    have hle : ((matchedCount l1 + matchedCount l2 : Nat) : ℚ) /
          ((l1 ++ sj :: l2).length : ℚ) ≤
        ((matchedCount l1 + (matchedCount l2 + 1) : Nat) : ℚ) /
          ((l1 ++ sj :: l2).length : ℚ) :=
      (div_le_div_iff_of_pos_right hn).mpr (by exact_mod_cast Nat.le_succ _)
    linarith
  have hypos : 0 < 1/2 + 1/2 *
      (((matchedCount l1 + matchedCount l2 : Nat) : ℚ) /
        ((l1 ++ sj :: l2).length : ℚ)) := by
    have hnn : 0 ≤ ((matchedCount l1 + matchedCount l2 : Nat) : ℚ) /
        ((l1 ++ sj :: l2).length : ℚ) :=
      div_nonneg (by positivity) hn.le
    linarith
  have hx2 : 0 ≤ ((l1.map (fun s => max 0 s)).sum +
      (sj + (l2.map (fun s => max 0 s)).sum)) /
        ((l1 ++ sj :: l2).length : ℚ) :=
    div_nonneg (by linarith) hn.le
  exact mul_lt_mul hx hy hypos hx2

/-- Witness for the amended claim C6 at N = 2 with scores (1, 1) against
(-1, 1): the fully matched photograph scores strictly higher. -/
theorem full_match_ranks_strictly_above_witness :
    combinedScore 2 [(-1 : ℚ), (1 : ℚ)] <
      combinedScore 2 [(1 : ℚ), (1 : ℚ)] :=
  full_match_ranks_strictly_above [] [1] 1 (by norm_num) (by norm_num)

/-- Claim C1 counterexample.  With two face descriptors, where face query 1
returns only photo 1 with score exactly 0 and face query 2 returns only photo
2 with score 1/2, the code discards photo 1 entirely (its only score is not
strictly positive, so the code's `matchedCount` is 0), returning a single
result — whereas the arithmetic stated by the claim (presence-based
`matchedCount`, every observed candidate scored, sorted, truncated to the
limit 20) retains photo 1 with `combinedScore` 0 and returns two results.
The fused list of the code is therefore not the list the claim describes. -/
theorem fusion_differs_from_claimed_arithmetic :
    searchByMultipleFaceEmbeddings exSingle [[1], [2]] exOptions =
      [{ id := 2, image_url := "b", score := 3/16 }]
    ∧ specFusionClaim exSingle [[1], [2]] exOptions =
      [{ id := 2, image_url := "b", score := 3/16 },
       { id := 1, image_url := "a", score := 0 }]
    ∧ searchByMultipleFaceEmbeddings exSingle [[1], [2]] exOptions ≠
        specFusionClaim exSingle [[1], [2]] exOptions := by
  have h1 : searchByMultipleFaceEmbeddings exSingle [[1], [2]] exOptions =
      [{ id := 2, image_url := "b", score := 3/16 }] := by
    norm_num [searchByMultipleFaceEmbeddings, fuseMany, exSingle, exOptions,
      perFaceOptions, buildMap, buildMapAux, insertOne, scoreEntries,
      matchedCount, combinedScore, sortDesc, insertDesc, exResultA, exResultB,
      List.replicate, List.set]
  have h2 : specFusionClaim exSingle [[1], [2]] exOptions =
      [{ id := 2, image_url := "b", score := 3/16 },
       { id := 1, image_url := "a", score := 0 }] := by
    norm_num [specFusionClaim, specClaimMany, exSingle, exOptions,
      perFaceOptions, firstOccur, occStep, claimCombined, claimMatchedCount,
      specScores, faceScoreFor, sortDesc, insertDesc, exResultA, exResultB,
      List.find?]
  refine ⟨h1, h2, ?_⟩
  rw [h1, h2]
  simp

/-- Claim C1, amended.  For every store oracle whose per-face replies carry no
duplicate photo ids (the store groups by photo id), `searchByMultipleFaceEmbeddings`
computes exactly the claimed pipeline — independent per-face retrievals with
limit `10 × L` and offset 0, per-candidate score vectors with sentinel `-1`,
`avgScore = (Σ max(0, s)) / N`, `combinedScore = avgScore × (0.5 + 0.5 ×
matchRatio)`, stable descending sort, truncation to `L` — except that
`matchedCount` counts positions with *strictly positive* score (not presence),
and candidates whose every observed score is ≤ 0 are discarded. -/
theorem fusion_matches_amended_arithmetic (single : FaceStore)
    (faceEmbeddings : List (List ℚ)) (options : SearchOptions)
    (h : ∀ emb ∈ faceEmbeddings,
      ((single emb (perFaceOptions options)).map (fun r => r.id)).Nodup) :
    searchByMultipleFaceEmbeddings single faceEmbeddings options =
      specFusionAmended single faceEmbeddings options := by
  cases faceEmbeddings with
  | nil => exact fuseMany_eq_specAmendedMany single [] options h
  | cons f1 t =>
      cases t with
      | nil => rfl
      | cons f2 u =>
          exact fuseMany_eq_specAmendedMany single (f1 :: f2 :: u) options h

/-- Witness for the amended claim C1 at a concrete store and query. -/
theorem fusion_matches_amended_arithmetic_witness :
    searchByMultipleFaceEmbeddings exSingle [[1], [2]] exOptions =
      specFusionAmended exSingle [[1], [2]] exOptions := by
  apply fusion_matches_amended_arithmetic
  intro emb hemb
  fin_cases hemb <;> norm_num [exSingle, exResultA, exResultB]

/-- Claim C5: a multi-face query with exactly one descriptor returns exactly
the result of the single-face store query with the same options — the
delegating branch of search.ts:194-196; no inflation, no fusion. -/
theorem multiFace_singleton_delegates (single : FaceStore) (emb : List ℚ)
    (options : SearchOptions) :
    searchByMultipleFaceEmbeddings single [emb] options =
      single emb options := rfl

/-- Claim C10: with at least two face descriptors and a non-empty tag filter
in the options, the per-face retrieval options carry no tag filter at all
(search.ts:203-207 passes only `eventNames`), and the fused output is
identical to the output with the tag filter removed — the filter is silently
dropped.  A singleton query instead passes its options, tag filter included,
through to the single-face store query, which applies it as an exact-match
join restriction. -/
theorem multiFace_drops_tag_filter (single : FaceStore) (f1 f2 : List ℚ)
    (fr : List (List ℚ)) (options : SearchOptions) (tags : List String)
    (htags : options.tagNames = some tags) (hne : tags ≠ []) :
    (perFaceOptions options).tagNames = none
    ∧ searchByMultipleFaceEmbeddings single (f1 :: f2 :: fr) options =
        searchByMultipleFaceEmbeddings single (f1 :: f2 :: fr)
          { options with tagNames := none }
    ∧ (∀ e, searchByMultipleFaceEmbeddings single [e] options =
        single e options) :=
  ⟨rfl, rfl, fun _ => rfl⟩

/-- Witness for claim C10 at a concrete store, query and tag filter. -/
theorem multiFace_drops_tag_filter_witness :
    (perFaceOptions
        { limit := 20, offset := 0, eventNames := none,
          tagNames := some ["person"] }).tagNames = none
    ∧ searchByMultipleFaceEmbeddings exSingle [[1], [2]]
        { limit := 20, offset := 0, eventNames := none,
          tagNames := some ["person"] } =
      searchByMultipleFaceEmbeddings exSingle [[1], [2]]
        { limit := 20, offset := 0, eventNames := none, tagNames := none }
    ∧ (∀ e, searchByMultipleFaceEmbeddings exSingle [e]
        { limit := 20, offset := 0, eventNames := none,
          tagNames := some ["person"] } =
      exSingle e
        { limit := 20, offset := 0, eventNames := none,
          tagNames := some ["person"] }) :=
  multiFace_drops_tag_filter exSingle [1] [2] []
    { limit := 20, offset := 0, eventNames := none,
      tagNames := some ["person"] }
    ["person"] rfl (by simp)

/-- Claim C2 counterexample.  Query A (text `A`) is submitted, then query B
(text `B`) is submitted while A's retrieval is in flight; B's retrieval
resolves first and A's resolves last.  The claim demands that the session
then show B's results (`exHitB`), but `useImageSearch` has no generation
counter: A's late resolution overwrites the state unconditionally, and the
session shows A's results. -/
theorem overlapping_queries_last_resolved_counterexample :
    (runSession exOracles initialSession exOverlapTrace).results = [exHitA]
    ∧ (runSession exOracles initialSession exOverlapTrace).results ≠
        [exHitB] := by
  have h : (runSession exOracles initialSession exOverlapTrace).results =
      [exHitA] := by
    simp +decide [runSession, exOverlapTrace, stepSession, searchByTextS,
      isBlank, textRetrieval, exOracles, initialSession, resolvedEvents,
      evOpt, updatedSelected, exHitA, exHitB, PAGE_SIZE]
  refine ⟨h, ?_⟩
  rw [h]
  simp [exHitA, exHitB]

/-- Claim C2, amended.  The session keeps no generation id: whichever
retrieval resolves *last* determines the visible results.  After any event
history `t`, appending the resolution of any search operation that reaches
its success path (its delivered hits being `finishHits` evaluated in the
state at resolution time) leaves exactly those hits as the visible results,
regardless of the submission order recorded in `t`. -/
theorem last_resolved_retrieval_wins (o : Oracles) (s : SessionState)
    (t : List SessionEvent) (ev : SessionEvent) (hits : List SearchResult)
    (h : finishHits o (runSession o s t) ev = some hits) :
    (runSession o s (t ++ [ev])).results = hits := by
  rw [runSession, List.foldl_append, List.foldl_cons, List.foldl_nil]
  show (stepSession o (runSession o s t) ev).results = hits
  cases ev with
  | startSearch => simp [finishHits] at h
  | finishText query eventNames =>
      simp only [finishHits] at h
      cases hb : isBlank query with
      | true => rw [if_pos (by simp [hb])] at h; cases h
      | false =>
          rw [if_neg (by simp [hb])] at h
          have hh := Option.some.inj h
          simp [stepSession, searchByTextS, hb, hh]
  | finishImage blob eventNames =>
      simp only [finishHits] at h
      have hh := Option.some.inj h
      simp [stepSession, searchByImageS, hh]
  | finishStored imageId eventNames =>
      simp only [finishHits] at h
      cases hemb : (o.getImageEmbedding imageId) with
      | none => rw [hemb] at h; cases h
      | some embedding =>
          rw [hemb] at h
          have hh := Option.some.inj h
          simp [stepSession, searchByStoredEmbeddingS, hemb, hh]
  | finishFace faceEmbedding eventNames =>
      simp only [finishHits] at h
      have hh := Option.some.inj h
      simp [stepSession, searchByFaceS, hh]
  | finishFaces faceEmbeddings eventNames =>
      simp only [finishHits] at h
      by_cases hlen : faceEmbeddings.length = 0
      · rw [if_pos hlen] at h; cases h
      · rw [if_neg hlen] at h
        have hh := Option.some.inj h
        simp [stepSession, searchByFacesS, hlen, hh]

/-- Witness for the amended claim C2: the sole resolution in the trace
determines the visible results. -/
theorem last_resolved_retrieval_wins_witness :
    (runSession exOracles initialSession
        ([] ++ [SessionEvent.finishText "A" (some [])])).results =
      [exHitA] := by
  apply last_resolved_retrieval_wins
  simp +decide [finishHits, runSession, textRetrieval, exOracles,
    initialSession, resolvedEvents, evOpt, isBlank, PAGE_SIZE, exHitA]

/-- Claim C3 counterexample.  A multi-face session (two stored descriptors,
first page of 20 shown, offset 20) runs `loadMore`; the fused retrieval with
the enlarged limit 40 returns exactly 20 items — exactly `pageSize` — yet
`hasMore` is set to `false`, because the multi-face branch requires the
result set to have grown *and* to have filled the enlarged limit, not to have
length `pageSize`. -/
theorem hasMore_pageSize_counterexample :
    (searchByMultipleFaceEmbeddings exOracles.single [[1], [2]]
      { limit := exMultiState.offset + PAGE_SIZE, offset := 0,
        eventNames := none, tagNames := none }).length = PAGE_SIZE
    ∧ (loadMoreS exOracles exMultiState).hasMore = false := by
  constructor
  · simp +decide [searchByMultipleFaceEmbeddings, fuseMany, exOracles,
      exPage20, exMultiState, perFaceOptions, buildMap, buildMapAux,
      insertOne, scoreEntries, matchedCount, combinedScore, sortDesc,
      insertDesc, PAGE_SIZE, List.replicate, List.set, List.range,
      List.range.loop]
  · simp +decide [loadMoreS, exMultiState, exOracles, evOpt, PAGE_SIZE,
      searchByMultipleFaceEmbeddings, fuseMany, exPage20, perFaceOptions,
      buildMap, buildMapAux, insertOne, scoreEntries, matchedCount,
      combinedScore, sortDesc, insertDesc, List.replicate, List.set,
      List.range, List.range.loop]

/-- Claim C3, amended.  `hasMore` is true iff the last retrieval returned
exactly `pageSize` (20) items — for every *search* operation and for the
offset-paginated `loadMore` branches (whole-image embedding, single face).
The multi-face `loadMore` branch does not follow this policy: there `hasMore`
is true iff the re-fused result both grew past the previous count and filled
the enlarged limit `offset + pageSize`. -/
theorem hasMore_policy (o : Oracles) (s : SessionState) (query : String)
    (blob : Blob) (imageId : Int) (femb : List ℚ) (fes : List (List ℚ))
    (evs : Option (List String)) :
    (isBlank query = false →
      ((searchByTextS o s query evs).hasMore = true ↔
        (textRetrieval o s query evs).length = PAGE_SIZE))
    ∧ ((searchByImageS o s blob evs).hasMore = true ↔
        (imageRetrieval o s blob evs).length = PAGE_SIZE)
    ∧ (∀ embedding, o.getImageEmbedding imageId = some embedding →
        ((searchByStoredEmbeddingS o s imageId evs).hasMore = true ↔
          (storedRetrieval o s embedding evs).length = PAGE_SIZE))
    ∧ ((searchByFaceS o s femb evs).hasMore = true ↔
        (faceRetrieval o s femb evs).length = PAGE_SIZE)
    ∧ (fes.length ≠ 0 →
        ((searchByFacesS o s fes evs).hasMore = true ↔
          (facesRetrieval o s fes evs).length = PAGE_SIZE))
    ∧ (∀ embedding, s.currentFaceEmbeddings = none →
        s.currentEmbedding = some embedding →
        ((loadMoreS o s).hasMore = true ↔
          (o.searchEmb embedding
            { limit := PAGE_SIZE, offset := s.offset,
              eventNames := evOpt s.selectedEvents,
              tagNames := none }).length = PAGE_SIZE))
    ∧ (∀ fe, s.currentFaceEmbeddings = some [fe] →
        ((loadMoreS o s).hasMore = true ↔
          (o.single fe
            { limit := PAGE_SIZE, offset := s.offset,
              eventNames := evOpt s.selectedEvents,
              tagNames := none }).length = PAGE_SIZE))
    ∧ (∀ f1 f2 fr, s.currentFaceEmbeddings = some (f1 :: f2 :: fr) →
        ((loadMoreS o s).hasMore = true ↔
          (s.results.length <
            (searchByMultipleFaceEmbeddings o.single (f1 :: f2 :: fr)
              { limit := s.offset + PAGE_SIZE, offset := 0,
                eventNames := evOpt s.selectedEvents,
                tagNames := none }).length
          ∧ (searchByMultipleFaceEmbeddings o.single (f1 :: f2 :: fr)
              { limit := s.offset + PAGE_SIZE, offset := 0,
                eventNames := evOpt s.selectedEvents,
                tagNames := none }).length = s.offset + PAGE_SIZE))) := by
  refine ⟨?_, ?_, ?_, ?_, ?_, ?_, ?_, ?_⟩
  · intro hq
    simp [searchByTextS, hq]
  · simp [searchByImageS]
  · intro embedding hemb
    simp [searchByStoredEmbeddingS, hemb]
  · simp [searchByFaceS]
  · intro hlen
    simp [searchByFacesS, hlen, facesRetrieval]
  · intro embedding hfaces hemb
    simp [loadMoreS, hfaces, hemb]
  · intro fe hfaces
    simp [loadMoreS, hfaces]
  · intro f1 f2 fr hfaces
    simp [loadMoreS, hfaces]

/-- Witness for the amended claim C3, exercising the multi-face `loadMore`
branch at a concrete session. -/
theorem hasMore_policy_witness :
    (loadMoreS exOracles exMultiState).hasMore = true ↔
      (exMultiState.results.length <
        (searchByMultipleFaceEmbeddings exOracles.single [[1], [2]]
          { limit := exMultiState.offset + PAGE_SIZE, offset := 0,
            eventNames := evOpt exMultiState.selectedEvents,
            tagNames := none }).length
      ∧ (searchByMultipleFaceEmbeddings exOracles.single [[1], [2]]
          { limit := exMultiState.offset + PAGE_SIZE, offset := 0,
            eventNames := evOpt exMultiState.selectedEvents,
            tagNames := none }).length =
          exMultiState.offset + PAGE_SIZE) :=
  (hasMore_policy exOracles exMultiState "A" 0 42 [1] [[1], [2]]
    none).2.2.2.2.2.2.2 [1] [2] [] rfl

/-- Claim C4: for an active multi-face query, `loadMore` re-runs the fused
retrieval with the limit enlarged by one page (`offset + 20`) and offset 0,
replaces the result list wholesale, advances the stored offset to the new
limit, and sets `hasMore` true exactly when the new result count is strictly
greater than the previous count and equals the enlarged limit
(part_002 lines 232-245). -/
theorem loadMore_multiFace_enlarged_limit (o : Oracles) (s : SessionState)
    (f1 f2 : List ℚ) (fr : List (List ℚ))
    (h : s.currentFaceEmbeddings = some (f1 :: f2 :: fr)) :
    (loadMoreS o s).results =
      searchByMultipleFaceEmbeddings o.single (f1 :: f2 :: fr)
        { limit := s.offset + PAGE_SIZE, offset := 0,
          eventNames := evOpt s.selectedEvents, tagNames := none }
    ∧ (loadMoreS o s).offset = s.offset + PAGE_SIZE
    ∧ ((loadMoreS o s).hasMore = true ↔
        (s.results.length <
          (searchByMultipleFaceEmbeddings o.single (f1 :: f2 :: fr)
            { limit := s.offset + PAGE_SIZE, offset := 0,
              eventNames := evOpt s.selectedEvents, tagNames := none }).length
        ∧ (searchByMultipleFaceEmbeddings o.single (f1 :: f2 :: fr)
            { limit := s.offset + PAGE_SIZE, offset := 0,
              eventNames := evOpt s.selectedEvents,
              tagNames := none }).length = s.offset + PAGE_SIZE)) := by
  refine ⟨?_, ?_, ?_⟩ <;> simp [loadMoreS, h]

/-- Witness for claim C4 at a concrete session and store. -/
theorem loadMore_multiFace_enlarged_limit_witness :
    (loadMoreS exOracles exMultiState).results =
      searchByMultipleFaceEmbeddings exOracles.single [[1], [2]]
        { limit := exMultiState.offset + PAGE_SIZE, offset := 0,
          eventNames := evOpt exMultiState.selectedEvents, tagNames := none }
    ∧ (loadMoreS exOracles exMultiState).offset =
        exMultiState.offset + PAGE_SIZE
    ∧ ((loadMoreS exOracles exMultiState).hasMore = true ↔
        (exMultiState.results.length <
          (searchByMultipleFaceEmbeddings exOracles.single [[1], [2]]
            { limit := exMultiState.offset + PAGE_SIZE, offset := 0,
              eventNames := evOpt exMultiState.selectedEvents,
              tagNames := none }).length
        ∧ (searchByMultipleFaceEmbeddings exOracles.single [[1], [2]]
            { limit := exMultiState.offset + PAGE_SIZE, offset := 0,
              eventNames := evOpt exMultiState.selectedEvents,
              tagNames := none }).length =
            exMultiState.offset + PAGE_SIZE)) :=
  loadMore_multiFace_enlarged_limit exOracles exMultiState [1] [2] [] rfl

/-- Claim C7 counterexample.  With a prior nonempty Ready page, a
stored-descriptor query for a photograph with no stored embedding completes
with the *prior* page still visible (here `[exHitA]`), not with an empty
page as the claim states; the not-found message is surfaced and the session
is no longer searching. -/
theorem stored_missing_not_empty_page_counterexample :
    (searchByStoredEmbeddingS exOracles exReadyState 42 none).results =
      [exHitA]
    ∧ (searchByStoredEmbeddingS exOracles exReadyState 42 none).results ≠ []
    ∧ (searchByStoredEmbeddingS exOracles exReadyState 42 none).message =
        "Embedding not found for this image."
    ∧ (searchByStoredEmbeddingS exOracles exReadyState 42 none).isSearching =
        false := by
  refine ⟨rfl, by simp [searchByStoredEmbeddingS, exOracles, exReadyState],
    rfl, rfl⟩

/-- Claim C7, amended.  When the stored-descriptor lookup finds nothing, the
operation completes in a non-searching state with the not-found message
surfaced and *every other session field unchanged*: the prior page, offset,
`hasMore`, filters and stored query are preserved exactly — no empty page is
installed, and no partial page or mismatched cursor can arise. -/
theorem stored_missing_preserves_page (o : Oracles) (s : SessionState)
    (imageId : Int) (evs : Option (List String))
    (h : o.getImageEmbedding imageId = none) :
    searchByStoredEmbeddingS o s imageId evs =
      { s with
        message := "Embedding not found for this image."
        isSearching := false } := by
  unfold searchByStoredEmbeddingS
  rw [h]

/-- Witness for the amended claim C7 at a concrete session. -/
theorem stored_missing_preserves_page_witness :
    searchByStoredEmbeddingS exOracles exReadyState 42 none =
      { exReadyState with
        message := "Embedding not found for this image."
        isSearching := false } :=
  stored_missing_preserves_page exOracles exReadyState 42 none rfl

theorem jround_intCast (z : Int) : jround ((z : ℚ)) = z := by
  unfold jround
  rw [add_comm, Int.floor_add_int]
  norm_num

/-- Claim C8: a completed drag selection whose width or height in display
units is below the 5-unit threshold produces no crop — `handleMouseUp`
reports `none`, so nothing at all (in particular no zero- or negative-area
rectangle) is handed to the rasterizer for such a selection.  (The code
rejects selections of width or height up to and including 5.) -/
theorem small_selection_yields_none (s c : ℚ × ℚ)
    (naturalWidth naturalHeight : ℚ) (rr : DomRect)
    (h : |c.1 - s.1| < 5 ∨ |c.2 - s.2| < 5) :
    handleMouseUp s c naturalWidth naturalHeight rr = none := by
  unfold handleMouseUp
  rw [if_neg]
  rintro ⟨h1, h2⟩
  rcases h with h3 | h3 <;> linarith

/-- Witness for claim C8: a 3-by-10 drag selection yields no crop. -/
theorem small_selection_yields_none_witness :
    handleMouseUp (0, 0) (3, 10) 100 100
      { left := 0, top := 0, width := 100, height := 100 } = none :=
  small_selection_yields_none (0, 0) (3, 10) 100 100
    { left := 0, top := 0, width := 100, height := 100 }
    (Or.inl (by norm_num))

/-- Claim C9 counterexample.  With the rendered box equal to the natural size
(both scale factors 1, no letterboxing), a drag from x = 1/2 to x = 13/2
(display rectangle x = 1/2, y = 0, w = 6, h = 6) maps to the pixel rectangle
(1, 0, 6, 6): `Math.round` moves the x-coordinate from 1/2 to 1, so the
mapped pixel rect does not equal the input display rect. -/
theorem crop_identity_rounding_counterexample :
    handleMouseUp (1/2, 0) (13/2, 6) 100 100
        { left := 0, top := 0, width := 100, height := 100 } =
      some { x := 1, y := 0, w := 6, h := 6 }
    ∧ ((1 : ℚ) ≠ min (1/2 : ℚ) (13/2)) := by
  constructor
  · norm_num [handleMouseUp, jround]
  · norm_num

/-- Claim C9, amended.  Under no scaling (rendered box equals the natural
pixel size) the display-to-pixel mapping is the identity on selection
rectangles with *integer* display coordinates; for fractional coordinates the
components are rounded to the nearest integer (half up), as in the
counterexample. -/
theorem crop_identity_on_integer_rect (sx sy cx cy : Int)
    (naturalWidth naturalHeight : ℚ) (rr : DomRect)
    (hw : rr.width = naturalWidth) (hh : rr.height = naturalHeight)
    (hw0 : naturalWidth ≠ 0) (hh0 : naturalHeight ≠ 0)
    (hx : 5 < |(cx : ℚ) - (sx : ℚ)|) (hy : 5 < |(cy : ℚ) - (sy : ℚ)|) :
    handleMouseUp ((sx : ℚ), (sy : ℚ)) ((cx : ℚ), (cy : ℚ))
        naturalWidth naturalHeight rr =
      some { x := min sx cx, y := min sy cy,
             w := |cx - sx|, h := |cy - sy| } := by
  unfold handleMouseUp
  rw [if_pos ⟨hx, hy⟩, hw, hh, div_self hw0, div_self hh0]
  have hminx : min ((sx : ℚ)) ((cx : ℚ)) = ((min sx cx : Int) : ℚ) := by
    push_cast
    rfl
  have hminy : min ((sy : ℚ)) ((cy : ℚ)) = ((min sy cy : Int) : ℚ) := by
    push_cast
    rfl
  have habsx : |(cx : ℚ) - (sx : ℚ)| = ((|cx - sx| : Int) : ℚ) := by
    push_cast
    rfl
  have habsy : |(cy : ℚ) - (sy : ℚ)| = ((|cy - sy| : Int) : ℚ) := by
    push_cast
    rfl
  rw [hminx, hminy, habsx, habsy]
  simp only [mul_one, jround_intCast]

/-- Witness for the amended claim C9: an integer selection rectangle maps to
itself when the image is rendered at natural size. -/
theorem crop_identity_on_integer_rect_witness :
    handleMouseUp (((0 : Int) : ℚ), ((0 : Int) : ℚ))
        (((6 : Int) : ℚ), ((6 : Int) : ℚ)) 100 100
        { left := 0, top := 0, width := 100, height := 100 } =
      some { x := min (0 : Int) 6, y := min (0 : Int) 6,
             w := |(6 : Int) - 0|, h := |(6 : Int) - 0| } :=
  crop_identity_on_integer_rect 0 0 6 6 100 100
    { left := 0, top := 0, width := 100, height := 100 }
    rfl rfl (by norm_num) (by norm_num)
    (by push_cast; norm_num) (by push_cast; norm_num)

end ImageSearch
